import Mathlib

/-!
Shallow embedding of the `dex_tool` DEX parser (src/main.rs, src/raw_dex.rs,
src/m_utf8.rs) over byte lists, together with theorems settling the frozen
claims about its specification.

A byte stream is a `List Nat` whose elements are byte values (0..255 on all
inputs the program ever produces).  A parser is a function
`Bytes → Except PErr (α × Bytes)` returning the parsed value and the remaining
bytes.  Rust `panic!`, `unwrap`, failed `debug_assert!` and out-of-bounds
indexing are all modelled as the `.panicked` error; `std::io` read failures
from `read_exact` are `.eof`.
-/

deriving instance DecidableEq for Except

namespace Dex

abbrev Bytes := List Nat

inductive PErr where
  | eof
  | panicked
  | lebOverflow
  | badByte
  | badSecondByte
  | badSecondThirdByte
  | utf16Error
  | fuel
  deriving DecidableEq, Repr

/-- `read_u8` / `reader.read_exact` on a single byte: fails (UnexpectedEof)
when the stream is empty. -/
def read_u8 : Bytes → Except PErr (Nat × Bytes)
  | [] => .error .eof
  | b :: s => .ok (b, s)

theorem read_u8_length {s : Bytes} {b : Nat} {r : Bytes} (h : read_u8 s = .ok (b, r)) :
    r.length < s.length := by
  cases s with
  | nil => simp [read_u8] at h
  | cons x xs =>
    simp [read_u8] at h
    simp [h.2.symm]

/-- `reader.read_exact(&mut buf)` for an `n`-byte buffer: fails with
UnexpectedEof when fewer than `n` bytes remain, otherwise consumes exactly
`n` bytes. -/
def read_exact (n : Nat) (s : Bytes) : Except PErr (Bytes × Bytes) :=
  if n ≤ s.length then .ok (s.take n, s.drop n) else .error .eof

/-- `read_u16` in raw_dex.rs: the buffer `[0u8; 2]` is zero-initialised and
filled with `reader.read(&mut buf)`, which at end of stream fills only the
bytes still available and reports no error; missing bytes stay zero. -/
def read_u16 (s : Bytes) : Nat × Bytes :=
  (s.headD 0 + 256 * (s.drop 1).headD 0, s.drop 2)

/-- `read_u32` in raw_dex.rs (and the identical `read_u32` in main.rs): the
buffer `[0u8; 4]` is zero-initialised and filled with `reader.read(&mut buf)`;
missing bytes at end of stream stay zero and no error is reported. -/
def read_u32 (s : Bytes) : Nat × Bytes :=
  (s.headD 0 + 256 * (s.drop 1).headD 0 + 65536 * (s.drop 2).headD 0 +
      16777216 * (s.drop 3).headD 0,
    s.drop 4)

/-- Core loop of `leb128::read::unsigned`: 7 low bits per byte, LSB first,
continuation bit 0x80; at shift 63 only the bytes 0x00 and 0x01 are allowed,
anything else is the crate's Overflow error.  The fuel bound 10 is the crate's
own maximum number of bytes for a 64-bit value and is never reached from
below. -/
def read_uleb_core : Nat → Nat → Nat → Bytes → Except PErr (Nat × Bytes)
  | 0, _, _, _ => .error .fuel
  | f + 1, shift, acc, s => do
    let (b, s) ← read_u8 s
    if shift = 63 ∧ b ≠ 0x00 ∧ b ≠ 0x01 then
      .error .lebOverflow
    else
      let acc := acc + (b % 128) * 2 ^ shift
      if b < 128 then .ok (acc, s)
      else read_uleb_core f (shift + 7) acc s

/-- `leb128::read::unsigned`. -/
def read_uleb (s : Bytes) : Except PErr (Nat × Bytes) :=
  read_uleb_core 10 0 0 s

/-- `leb128::read::unsigned(reader).unwrap()`: any decode failure panics. -/
def read_uleb_unwrap (s : Bytes) : Except PErr (Nat × Bytes) :=
  match read_uleb s with
  | .ok r => .ok r
  | .error _ => .error .panicked

/-- Core loop of `leb128::read::signed`: as the unsigned loop but at shift 63
only 0x00 and 0x7f are allowed, and on the final byte bit 6 sign-extends the
result. -/
def read_sleb_core : Nat → Nat → Int → Bytes → Except PErr (Int × Bytes)
  | 0, _, _, _ => .error .fuel
  | f + 1, shift, acc, s => do
    let (b, s) ← read_u8 s
    if shift = 63 ∧ b ≠ 0x00 ∧ b ≠ 0x7f then
      .error .lebOverflow
    else
      let acc := acc + ((b % 128 : Nat) : Int) * 2 ^ shift
      let shift := shift + 7
      if b < 128 then
        if shift < 64 ∧ 64 ≤ b then .ok (acc - 2 ^ shift, s)
        else .ok (acc, s)
      else read_sleb_core f shift acc s

/-- `leb128::read::signed`. -/
def read_sleb (s : Bytes) : Except PErr (Int × Bytes) :=
  read_sleb_core 10 0 0 s

/-- `leb128::read::signed(reader).unwrap()`. -/
def read_sleb_unwrap (s : Bytes) : Except PErr (Int × Bytes) :=
  match read_sleb s with
  | .ok r => .ok r
  | .error _ => .error .panicked

/-- Run a one-item parser `n` times in sequence (the `for _ in 0..n` loops
pushing into a `Vec`). -/
def mrepeat {α : Type} (p : Bytes → Except PErr (α × Bytes)) :
    Nat → Bytes → Except PErr (List α × Bytes)
  | 0, s => .ok ([], s)
  | n + 1, s => do
    let (a, s) ← p s
    let (as, s) ← mrepeat p n s
    .ok (a :: as, s)

/-- Little-endian value of a byte list. -/
def leVal : Bytes → Nat
  | [] => 0
  | b :: s => b + 256 * leVal s

/-- Two's-complement reading of a `bits`-wide unsigned value
(`iN::from_le_bytes`). -/
def toSigned (bits v : Nat) : Int :=
  if v < 2 ^ (bits - 1) then (v : Int) else (v : Int) - 2 ^ bits

mutual
inductive EncodedValue where
  | Byte (v : Nat)
  | Short (v : Int)
  | Char (v : Nat)
  | Int (v : Int)
  | Long (v : Int)
  | Float (bits : Nat)
  | Double (bits : Nat)
  | MethodType (v : Nat)
  | MethodHandle (v : Nat)
  | String (v : Nat)
  | Type (v : Nat)
  | Field (v : Nat)
  | Method (v : Nat)
  | Enum (v : Nat)
  | Array (vs : List EncodedValue)
  | Annot (a : EncodedAnnot)
  | Null
  | Boolean (b : Bool)
inductive EncodedAnnot where
  | mk (type_idx : Nat) (elements : List AnnotElement)
inductive AnnotElement where
  | mk (name_idx : Nat) (value : EncodedValue)
end

mutual
/-- `EncodedValue::from_reader`.  The first byte splits into
`value_arg = (byte & 0xe0) >> 5` and `value_type = byte & 0x1f`; the payload
reads are exactly those of the source: fixed-width `read_exact` buffers for
Short/Int/Long/Float/Double, `read_u16`/`read_u32` for Char and the index
kinds, recursion for arrays and annotations.  `Float`/`Double` keep the raw
IEEE bit pattern of the 4/8 bytes read.  The `fuel` argument only bounds the
recursion depth of the model; every theorem instantiates it large enough that
it is never exhausted. -/
def EncodedValue.from_reader : Nat → Bytes → Except PErr (EncodedValue × Bytes)
  | 0, _ => .error .fuel
  | f + 1, s => do
    let (byte, s) ← read_u8 s
    let value_arg := (byte &&& 0xe0) >>> 5
    let value_type := byte &&& 0x1f
    match value_type with
    | 0x00 => do let (b, s) ← read_u8 s; .ok (.Byte b, s)
    | 0x02 => do let (bs, s) ← read_exact 2 s; .ok (.Short (toSigned 16 (leVal bs)), s)
    | 0x03 => let (v, s) := read_u16 s; .ok (.Char v, s)
    | 0x04 => do let (bs, s) ← read_exact 4 s; .ok (.Int (toSigned 32 (leVal bs)), s)
    | 0x06 => do let (bs, s) ← read_exact 8 s; .ok (.Long (toSigned 64 (leVal bs)), s)
    | 0x10 => do let (bs, s) ← read_exact 4 s; .ok (.Float (leVal bs), s)
    | 0x11 => do let (bs, s) ← read_exact 8 s; .ok (.Double (leVal bs), s)
    | 0x15 => let (v, s) := read_u32 s; .ok (.MethodType v, s)
    | 0x16 => let (v, s) := read_u32 s; .ok (.MethodHandle v, s)
    | 0x17 => let (v, s) := read_u32 s; .ok (.String v, s)
    | 0x18 => let (v, s) := read_u32 s; .ok (.Type v, s)
    | 0x19 => let (v, s) := read_u32 s; .ok (.Field v, s)
    | 0x1a => let (v, s) := read_u32 s; .ok (.Method v, s)
    | 0x1b => let (v, s) := read_u32 s; .ok (.Enum v, s)
    | 0x1c => do
      let (size, s) ← read_uleb_unwrap s
      let (vs, s) ← EncodedValue.from_reader_list f size s
      .ok (.Array vs, s)
    | 0x1d => do
      let (a, s) ← EncodedAnnot.from_reader f s
      .ok (.Annot a, s)
    | 0x1e => .ok (.Null, s)
    | 0x1f => .ok (.Boolean (value_arg != 0), s)
    | _ => .error .panicked

/-- The `for _ in 0..size` loop of the `0x1c` (Array) branch. -/
def EncodedValue.from_reader_list : Nat → Nat → Bytes → Except PErr (List EncodedValue × Bytes)
  | 0, _, _ => .error .fuel
  | _ + 1, 0, s => .ok ([], s)
  | f + 1, n + 1, s => do
    let (v, s) ← EncodedValue.from_reader f s
    let (vs, s) ← EncodedValue.from_reader_list f n s
    .ok (v :: vs, s)

/-- `EncodedAnnot::from_reader`. -/
def EncodedAnnot.from_reader : Nat → Bytes → Except PErr (EncodedAnnot × Bytes)
  | 0, _ => .error .fuel
  | f + 1, s => do
    let (type_idx, s) ← read_uleb_unwrap s
    let (size, s) ← read_uleb_unwrap s
    let (elems, s) ← EncodedAnnot.elements_loop f size s
    .ok (.mk type_idx elems, s)

/-- The elements loop of `EncodedAnnot::from_reader`. -/
def EncodedAnnot.elements_loop : Nat → Nat → Bytes → Except PErr (List AnnotElement × Bytes)
  | 0, _, _ => .error .fuel
  | _ + 1, 0, s => .ok ([], s)
  | f + 1, n + 1, s => do
    let (name_idx, s) ← read_uleb_unwrap s
    let (v, s) ← EncodedValue.from_reader f s
    let (vs, s) ← EncodedAnnot.elements_loop f n s
    .ok (.mk name_idx v :: vs, s)
end

namespace m_utf8

/-- The success condition of `String::from_utf16`: every high surrogate is
immediately followed by a low surrogate and no low surrogate appears alone. -/
def utf16Valid : List Nat → Bool
  | [] => true
  | u :: rest =>
    if 0xD800 ≤ u ∧ u < 0xDC00 then
      match rest with
      | v :: rest2 => if 0xDC00 ≤ v ∧ v < 0xE000 then utf16Valid rest2 else false
      | [] => false
    else if 0xDC00 ≤ u ∧ u < 0xE000 then false
    else utf16Valid rest

/-- The decode loop of `m_utf8::to_string`.  `out` is the `vec![0u16; size]`
buffer, `s` the running count of emitted code units.  A byte `0x00`
terminates: the collected code units `out[..s]` are converted (UTF-16
validity check), then `debug_assert!(s == size)` runs — modelled as a panic on
mismatch, as in the debug profile the crate is built with.  For a non-zero
byte the source first executes `out[s] = a`, which panics with an
index-out-of-bounds when `s` has already reached the buffer length; the
continuation bytes `b` and `c` are fetched with `read_u8` exactly as in the
source. -/
def go (size : Nat) (bytes : Bytes) (out : List Nat) (s : Nat) :
    Except PErr (List Nat × Bytes) :=
  match bytes with
  | [] => .error .eof
  | a :: rest =>
    if a = 0 then
      if utf16Valid (out.take s) then
        if s = size then .ok (out.take s, rest) else .error .panicked
      else .error .utf16Error
    else if s < out.length then
      if a < 0x80 then go size rest (out.set s a) (s + 1)
      else if a &&& 0xe0 = 0xc0 then
        match hb : read_u8 rest with
        | .error e => .error e
        | .ok (b, rest2) =>
          if b &&& 0xc0 ≠ 0x80 then .error .badSecondByte
          else go size rest2 (out.set s ((a &&& 0x1f) * 64 + (b &&& 0x3f))) (s + 1)
      else if a &&& 0xf0 = 0xe0 then
        match hb : read_u8 rest with
        | .error e => .error e
        | .ok (b, rest2) =>
          match hc : read_u8 rest2 with
          | .error e => .error e
          | .ok (c, rest3) =>
            if b &&& 0xc0 ≠ 0x80 ∨ c &&& 0xc0 ≠ 0x80 then .error .badSecondThirdByte
            else go size rest3
              (out.set s ((a &&& 0x0f) * 4096 + (b &&& 0x3f) * 64 + (c &&& 0x3f))) (s + 1)
      else .error .badByte
    else .error .panicked
termination_by bytes.length
decreasing_by
  · simp +arith
  · have := read_u8_length hb
    simp
    omega
  · have h1 := read_u8_length hb
    have h2 := read_u8_length hc
    simp
    omega

/-- `m_utf8::to_string(reader, size)`: result is the UTF-16 code-unit list of
the returned string, paired with the bytes left in the reader. -/
def to_string (size : Nat) (s : Bytes) : Except PErr (List Nat × Bytes) :=
  go size s (List.replicate size 0) 0

end m_utf8

/-- `MapItem { item_type: u16, size: u32, offset: u32 }`. -/
structure MapItem where
  item_type : Nat
  size : Nat
  offset : Nat
  deriving DecidableEq, Repr

/-- `find_type_in_map`: the first map entry of the given type (the source's
loop breaks at the first hit). -/
def find_type_in_map : List MapItem → Nat → Option MapItem
  | [], _ => none
  | it :: rest, item_type =>
    if it.item_type = item_type then some it else find_type_in_map rest item_type

structure EncodedField where
  field_idx_diff : Nat
  access_flags : Nat
  deriving DecidableEq, Repr

structure EncodedMethod where
  method_idx_diff : Nat
  access_flags : Nat
  code_off : Nat
  deriving DecidableEq, Repr

structure ClassData where
  static_fields : List EncodedField
  instance_fields : List EncodedField
  direct_methods : List EncodedMethod
  virtual_methods : List EncodedMethod
  deriving DecidableEq, Repr

/-- `read_encoded_field` in `parse_class_data`: two unwrapped ulebs. -/
def read_encoded_field (s : Bytes) : Except PErr (EncodedField × Bytes) := do
  let (d, s) ← read_uleb_unwrap s
  let (a, s) ← read_uleb_unwrap s
  .ok (⟨d, a⟩, s)

/-- `read_encoded_method` in `parse_class_data`: three unwrapped ulebs. -/
def read_encoded_method (s : Bytes) : Except PErr (EncodedMethod × Bytes) := do
  let (d, s) ← read_uleb_unwrap s
  let (a, s) ← read_uleb_unwrap s
  let (c, s) ← read_uleb_unwrap s
  .ok (⟨d, a, c⟩, s)

/-- One iteration of the `parse_class_data` loop: the four uleb sizes, then
the four entry lists. -/
def read_class_data_item (s : Bytes) : Except PErr (ClassData × Bytes) := do
  let (static_fields_size, s) ← read_uleb_unwrap s
  let (instance_fields_size, s) ← read_uleb_unwrap s
  let (direct_methods_size, s) ← read_uleb_unwrap s
  let (virtual_methods_size, s) ← read_uleb_unwrap s
  let (static_fields, s) ← mrepeat read_encoded_field static_fields_size s
  let (instance_fields, s) ← mrepeat read_encoded_field instance_fields_size s
  let (direct_methods, s) ← mrepeat read_encoded_method direct_methods_size s
  let (virtual_methods, s) ← mrepeat read_encoded_method virtual_methods_size s
  .ok (⟨static_fields, instance_fields, direct_methods, virtual_methods⟩, s)

/-- `parse_class_data`: panics (`panic!("No Class Data Offset Found")`) when
the map holds no 0x2000 entry; otherwise seeks the entry's offset and reads
`size` class_data items. -/
def parse_class_data (map_list : List MapItem) (file : Bytes) :
    Except PErr (List ClassData × Bytes) :=
  match find_type_in_map map_list 0x2000 with
  | none => .error .panicked
  | some item => mrepeat read_class_data_item item.size (file.drop item.offset)

/-- Modelled from the spec (§4.6.2 delta semantics), for comparison with what
the parser exposes: the absolute index of entry `i` is the sum of the diffs
`0..i` within the list. -/
def resolve_from (acc : Nat) : List EncodedField → List Nat
  | [] => []
  | f :: rest => (acc + f.field_idx_diff) :: resolve_from (acc + f.field_idx_diff) rest

/-- Modelled from the spec (§4.6.2): resolved absolute field indices of a
field list. -/
def resolvedFieldIndices (fields : List EncodedField) : List Nat :=
  resolve_from 0 fields

/-- `read_u16` in the one-result parser shape (its `?` never fires at end of
stream, cf. `read_u16`). -/
def read_u16p (s : Bytes) : Except PErr (Nat × Bytes) := .ok (read_u16 s)

/-- `read_u32` in the one-result parser shape. -/
def read_u32p (s : Bytes) : Except PErr (Nat × Bytes) := .ok (read_u32 s)

/-- One iteration of `parse_type_lists`: `u32 size`, `size` × u16, and two
skipped alignment bytes when `size` is odd. -/
def read_type_list (s : Bytes) : Except PErr (List Nat × Bytes) := do
  let (size, s) := read_u32 s
  let (type_list, s) ← mrepeat read_u16p size s
  if size % 2 = 1 then do
    let (_, s) ← read_exact 2 s
    .ok (type_list, s)
  else .ok (type_list, s)

/-- `parse_type_lists`: `find_type_in_map(map_list, 0x1001).unwrap()` panics
when the entry is missing; otherwise reads `size` type lists at the offset. -/
def parse_type_lists (map_list : List MapItem) (file : Bytes) :
    Except PErr (List (List Nat) × Bytes) :=
  match find_type_in_map map_list 0x1001 with
  | none => .error .panicked
  | some item => mrepeat read_type_list item.size (file.drop item.offset)

/-- `parse_call_side_item` (sic): panics with "Call Site Id Item was not
null!" whenever the map holds a 0x07 entry, and does nothing otherwise. -/
def parse_call_side_item (map_list : List MapItem) : Except PErr Unit :=
  if (find_type_in_map map_list 0x07).isSome then .error .panicked else .ok ()

/-- `parse_call_side_ids`: `Ok(Vec::new())` when the map holds no 0x07 entry,
otherwise `size` u32 reads at the entry's offset. -/
def parse_call_side_ids (map_list : List MapItem) (file : Bytes) :
    Except PErr (List Nat × Bytes) :=
  match find_type_in_map map_list 0x07 with
  | none => .ok ([], file)
  | some item => mrepeat read_u32p item.size (file.drop item.offset)

structure MethodHandle where
  method_handle_type : Nat
  field_or_method_id : Nat
  deriving DecidableEq, Repr

/-- One `method_handle_item`: u16 type, 2 skipped bytes, u16 id, 2 skipped
bytes (the skips use `read_exact` and can fail at end of stream). -/
def read_method_handle (s : Bytes) : Except PErr (MethodHandle × Bytes) := do
  let (t, s) := read_u16 s
  let (_, s) ← read_exact 2 s
  let (used, s) := read_u16 s
  let (_, s) ← read_exact 2 s
  .ok (⟨t, used⟩, s)

/-- `parse_method_handles`: `Ok(Vec::new())` when the map holds no 0x08
entry. -/
def parse_method_handles (map_list : List MapItem) (file : Bytes) :
    Except PErr (List MethodHandle × Bytes) :=
  match find_type_in_map map_list 0x08 with
  | none => .ok ([], file)
  | some item => mrepeat read_method_handle item.size (file.drop item.offset)

structure HiddenApiClassData where
  size : Nat
  offsets : List Nat
  flags : List Nat
  deriving DecidableEq, Repr

/-- One `hiddenapi_class_data` record: u32 size, `size` u32 offsets, `size`
unwrapped uleb flags. -/
def read_hiddenapi_item (s : Bytes) : Except PErr (HiddenApiClassData × Bytes) := do
  let (size, s) := read_u32 s
  let (offsets, s) ← mrepeat read_u32p size s
  let (flags, s) ← mrepeat read_uleb_unwrap size s
  .ok (⟨size, offsets, flags⟩, s)

/-- `parse_hiddenapi_class_data`: `Ok(Vec::new())` when the map holds no
0xF000 entry. -/
def parse_hiddenapi_class_data (map_list : List MapItem) (file : Bytes) :
    Except PErr (List HiddenApiClassData × Bytes) :=
  match find_type_in_map map_list 0xF000 with
  | none => .ok ([], file)
  | some item => mrepeat read_hiddenapi_item item.size (file.drop item.offset)

structure DebugInfoItem where
  line_start : Nat
  parameter_names : List Int
  state_machine_bytes : List Nat
  deriving DecidableEq, Repr

/-- `i64::try_from(leb128::read::unsigned(reader).unwrap()).unwrap() - 1`:
the uleb128p1 read of a parameter name index; `try_from` panics for values
not fitting i64. -/
def read_uleb_p1_unwrap (s : Bytes) : Except PErr (Int × Bytes) := do
  let (n, s) ← read_uleb_unwrap s
  if n < 2 ^ 63 then .ok ((n : Int) - 1, s) else .error .panicked

/-- The `state_machine_bytes` loop of `parse_debug_info`: single-byte
`read_exact` reads (the `?` propagates UnexpectedEof) until a 0x00 byte. -/
def read_until_zero : Bytes → Except PErr (List Nat × Bytes)
  | [] => .error .eof
  | b :: rest =>
    if b = 0 then .ok ([], rest)
    else do
      let (v, r) ← read_until_zero rest
      .ok (b :: v, r)

/-- One `debug_info_item`. -/
def read_debug_info_item (s : Bytes) : Except PErr (DebugInfoItem × Bytes) := do
  let (line_start, s) ← read_uleb_unwrap s
  let (psize, s) ← read_uleb_unwrap s
  let (parameter_names, s) ← mrepeat read_uleb_p1_unwrap psize s
  let (state_machine_bytes, s) ← read_until_zero s
  .ok (⟨line_start, parameter_names, state_machine_bytes⟩, s)

/-- `parse_debug_info`: panics with "No Debug Info Found" when the map holds
no 0x2003 entry. -/
def parse_debug_info (map_list : List MapItem) (file : Bytes) :
    Except PErr (List DebugInfoItem × Bytes) :=
  match find_type_in_map map_list 0x2003 with
  | none => .error .panicked
  | some item => mrepeat read_debug_info_item item.size (file.drop item.offset)

end Dex

/-- Sanity: `C2 A9 00` with declared count 1 decodes to the single code unit
U+00A9 (spec example S4, second case). -/
example : Dex.m_utf8.to_string 1 [0xC2, 0xA9, 0x00] = .ok ([0xA9], []) := by
  simp [Dex.m_utf8.to_string, Dex.m_utf8.go, Dex.read_u8, Dex.m_utf8.utf16Valid]
  try decide

/-- Sanity: surrogate pair `ED A0 BD ED B8 80 00` with declared count 2
decodes to code units `D83D DE00` (spec example S4, third case). -/
example :
    Dex.m_utf8.to_string 2 [0xED, 0xA0, 0xBD, 0xED, 0xB8, 0x80, 0x00] =
      .ok ([0xD83D, 0xDE00], []) := by
  simp [Dex.m_utf8.to_string, Dex.m_utf8.go, Dex.read_u8, Dex.m_utf8.utf16Valid]
  try decide

/-- Sanity check of the recursive array branch: a two-element encoded array
holding `Null` (tag 0x1e) and `Boolean(true)` (tag 0x1f with value_arg 1,
i.e. byte 0x3F). -/
example :
    Dex.EncodedValue.from_reader 10 [0x1C, 0x02, 0x1E, 0x3F] =
      .ok (.Array [.Null, .Boolean true], []) := rfl

/-- Helper for claim C3: whenever the MUTF-8 decode loop returns successfully,
the bytes it consumed are exactly a zero-free prefix of the input followed by
a single terminating `0x00`; the declared size plays no role in where it
stops. -/
theorem go_stops_at_zero (size : Nat) (bytes : Dex.Bytes) (out : List Nat) (s : Nat) :
    ∀ (us : List Nat) (rr : Dex.Bytes),
      Dex.m_utf8.go size bytes out s = .ok (us, rr) →
      ∃ taken, bytes = taken ++ 0 :: rr ∧ ¬ 0 ∈ taken := by
  induction bytes, out, s using Dex.m_utf8.go.induct size with
  | case1 out s =>
    intro us rr h
    rw [Dex.m_utf8.go.eq_def] at h
    simp at h
  | case2 out rest hval =>
    intro us rr h
    rw [Dex.m_utf8.go.eq_def] at h
    simp [hval] at h
    exact ⟨[], by simp [h.2], by simp⟩
  | case3 out s rest hval hs =>
    intro us rr h
    rw [Dex.m_utf8.go.eq_def] at h
    simp [hval, hs] at h
  | case4 out s rest hval =>
    intro us rr h
    rw [Dex.m_utf8.go.eq_def] at h
    simp [hval] at h
  | case5 out s a rest ha hs ha1 ih =>
    intro us rr h
    rw [Dex.m_utf8.go.eq_def] at h
    simp only [ha, hs, ha1, if_true, ite_true, ite_false, if_pos, if_neg,
      not_false_eq_true] at h
    obtain ⟨taken, ht, hz⟩ := ih us rr h
    refine ⟨a :: taken, by simp [ht], ?_⟩
    simp only [List.mem_cons]
    rintro (h0 | h0)
    · exact ha h0.symm
    · exact hz h0
  | case6 out s a rest ha hs ha1 ha2 e he =>
    intro us rr h
    rw [Dex.m_utf8.go.eq_def] at h
    simp only [ha, hs, ha1, ha2, if_true, ite_true, ite_false, if_pos, if_neg,
      not_false_eq_true] at h
    split at h <;> simp_all
  | case7 out s a rest ha hs ha1 ha2 b1 rest2 hb hbad =>
    intro us rr h
    rw [Dex.m_utf8.go.eq_def] at h
    simp only [ha, hs, ha1, ha2, if_true, ite_true, ite_false, if_pos, if_neg,
      not_false_eq_true] at h
    split at h <;> simp_all
  | case8 out s a rest ha hs ha1 ha2 b1 rest2 hb hbad ih =>
    intro us rr h
    rw [Dex.m_utf8.go.eq_def] at h
    simp only [ha, hs, ha1, ha2, if_true, ite_true, ite_false, if_pos, if_neg,
      not_false_eq_true] at h
    split at h
    · simp at h
    · rename_i b' rest2' heq
      rw [hb] at heq
      cases heq
      rw [if_neg hbad] at h
      have hgood : b1 &&& 192 = 128 := not_not.mp hbad
      obtain ⟨taken, ht, hz⟩ := ih us rr h
      have hb1 : b1 ≠ 0 := by
        intro h0
        rw [h0] at hgood
        simp at hgood
      have hrest : rest = b1 :: rest2 := by
        cases rest with
        | nil => simp [Dex.read_u8] at hb
        | cons x xs =>
          simp [Dex.read_u8] at hb
          simp [hb.1, hb.2]
      refine ⟨a :: b1 :: taken, by simp [hrest, ht], ?_⟩
      simp only [List.mem_cons]
      rintro (h0 | h0 | h0)
      · exact ha h0.symm
      · exact hb1 h0.symm
      · exact hz h0
  | case9 out s a rest ha hs ha1 ha2 ha3 e he =>
    intro us rr h
    rw [Dex.m_utf8.go.eq_def] at h
    simp only [ha, hs, ha1, ha2, ha3, if_true, ite_true, ite_false, if_pos, if_neg,
      not_false_eq_true] at h
    split at h <;> try split at h
    all_goals simp_all
  | case10 out s a rest ha hs ha1 ha2 ha3 b1 rest2 hb e he =>
    intro us rr h
    rw [Dex.m_utf8.go.eq_def] at h
    simp only [ha, hs, ha1, ha2, ha3, if_true, ite_true, ite_false, if_pos, if_neg,
      not_false_eq_true] at h
    split at h <;> try split at h
    all_goals simp_all
  | case11 out s a rest ha hs ha1 ha2 ha3 b1 rest2 hb b2 rest3 hc hbad =>
    intro us rr h
    rw [Dex.m_utf8.go.eq_def] at h
    simp only [ha, hs, ha1, ha2, ha3, if_true, ite_true, ite_false, if_pos, if_neg,
      not_false_eq_true] at h
    split at h <;> try split at h
    all_goals simp_all
  | case12 out s a rest ha hs ha1 ha2 ha3 b1 rest2 hb b2 rest3 hc hbad ih =>
    intro us rr h
    rw [Dex.m_utf8.go.eq_def] at h
    simp only [ha, hs, ha1, ha2, ha3, if_true, ite_true, ite_false, if_pos, if_neg,
      not_false_eq_true] at h
    split at h
    · simp at h
    · rename_i b' rest2' heq
      rw [hb] at heq
      cases heq
      split at h
      · simp at h
      · rename_i b2' rest3' heq2
        rw [hc] at heq2
        cases heq2
        rw [if_neg hbad] at h
        push_neg at hbad
        obtain ⟨taken, ht, hz⟩ := ih us rr h
        have hb1 : b1 ≠ 0 := by
          intro h0
          rw [h0] at hbad
          simp at hbad
        have hb2 : b2 ≠ 0 := by
          intro h0
          rw [h0] at hbad
          simp at hbad
        have hrest : rest = b1 :: rest2 := by
          cases rest with
          | nil => simp [Dex.read_u8] at hb
          | cons x xs =>
            simp [Dex.read_u8] at hb
            simp [hb.1, hb.2]
        have hrest2 : rest2 = b2 :: rest3 := by
          cases rest2 with
          | nil => simp [Dex.read_u8] at hc
          | cons x xs =>
            simp [Dex.read_u8] at hc
            simp [hc.1, hc.2]
        refine ⟨a :: b1 :: b2 :: taken, by simp [hrest, hrest2, ht], ?_⟩
        simp only [List.mem_cons]
        rintro (h0 | h0 | h0 | h0)
        · exact ha h0.symm
        · exact hb1 h0.symm
        · exact hb2 h0.symm
        · exact hz h0
  | case13 out s a rest ha hs ha1 ha2 ha3 =>
    intro us rr h
    rw [Dex.m_utf8.go.eq_def] at h
    simp [ha, hs, ha1, ha2, ha3] at h
  | case14 out s a rest ha hs =>
    intro us rr h
    rw [Dex.m_utf8.go.eq_def] at h
    simp [ha, hs] at h

/-- C1 — code_bug.  The claim (and spec table / example S5) say the decoder of
an integer-kind `encoded_value` reads exactly `value_arg+1` payload bytes, so
that `24 39 30` (tag 0x04, value_arg 1) yields `Int(12345)` after consuming
the tag byte and two payload bytes.  The source instead always fills a fixed
4-byte buffer with `read_exact` for tag 0x04: on the exact bytes `24 39 30` it
fails with UnexpectedEof, and when two further bytes `00 00` happen to follow
it consumes them as well (the remaining stream is empty, not `[0, 0]`). -/
theorem C1_encoded_int_reads_fixed_width :
    Dex.EncodedValue.from_reader 10 [0x24, 0x39, 0x30] = .error .eof ∧
      Dex.EncodedValue.from_reader 10 [0x24, 0x39, 0x30, 0x00, 0x00] =
        .ok (.Int 12345, []) := by
  constructor <;> rfl

/-- C2 — code_bug.  The claim says every `read_uN` fails with `Truncated` when
fewer than N/8 bytes remain.  `read_u8` (built on `read_exact`) does fail, but
`read_u16` and `read_u32` use `Read::read` into a zero-initialised buffer, so
on a truncated stream they return a value assembled from the remaining bytes
zero-extended instead of failing: one leftover byte `0x39` yields `0x0039`
from `read_u16`, and two leftover bytes `12 34` yield `0x00003412` from
`read_u32`. -/
theorem C2_short_reads_do_not_fail :
    Dex.read_u16 [0x39] = (0x39, []) ∧
      Dex.read_u32 [0x12, 0x34] = (0x3412, []) ∧
      Dex.read_u8 [] = .error .eof := by
  refine ⟨rfl, rfl, rfl⟩

/-- Sanity example from the spec (S2): uleb `E5 8E 26` decodes to 624485. -/
example : Dex.read_uleb [0xE5, 0x8E, 0x26] = .ok (624485, []) := by decide

/-- Sanity example from the spec (S3): sleb `C0 BB 78` decodes to -123456. -/
example : Dex.read_sleb [0xC0, 0xBB, 0x78] = .ok (-123456, []) := by decide

example : Dex.read_sleb [0x7F] = .ok (-1, []) := by decide

example : Dex.read_sleb [0x3F] = .ok (63, []) := by decide

example : Dex.read_uleb [0x80, 0x01] = .ok (128, []) := by decide

/-- C3 — amended claim.  The MUTF-8 decoder does stop at the next `0x00` byte
rather than after the declared number `n` of code units (first conjunct: any
successful decode consumed a zero-free prefix plus one terminating zero), but
a count mismatch is not a warn-and-continue: emitting more code units than
declared panics on the out-of-bounds write `out[s] = a`, so declared count 3
with bytes `4A 61 76 61 00` panics instead of returning `"Java"`; with the
correct declared count 4 the same bytes decode to `"Java"` (code units
`4A 61 76 61`) leaving trailing input untouched. -/
theorem C3_mutf8_stops_at_zero_panics_on_excess :
    (∀ (size : Nat) (bytes : Dex.Bytes) (units : List Nat) (rest : Dex.Bytes),
        Dex.m_utf8.to_string size bytes = .ok (units, rest) →
        ∃ taken, bytes = taken ++ 0 :: rest ∧ ¬ 0 ∈ taken) ∧
      Dex.m_utf8.to_string 3 [0x4A, 0x61, 0x76, 0x61, 0x00] = .error .panicked ∧
      Dex.m_utf8.to_string 4 [0x4A, 0x61, 0x76, 0x61, 0x00, 0x99] =
        .ok ([0x4A, 0x61, 0x76, 0x61], [0x99]) := by
  refine ⟨?_, ?_, ?_⟩
  · intro size bytes units rest h
    exact go_stops_at_zero size bytes _ 0 units rest h
  · simp [Dex.m_utf8.to_string, Dex.m_utf8.go, Dex.read_u8, Dex.m_utf8.utf16Valid]
    try decide
  · simp [Dex.m_utf8.to_string, Dex.m_utf8.go, Dex.read_u8, Dex.m_utf8.utf16Valid]
    try decide

/-- C3 — counterexample to the claim as stated: on declared code-unit count 3
and input bytes `4A 61 76 61 00` the decoder does not return the string
`"Java"` with a warning; it panics (index out of bounds on the `out` buffer of
length 3) before ever reaching the `0x00` terminator. -/
theorem C3_counterexample_java_declared_3_panics :
    Dex.m_utf8.to_string 3 [0x4A, 0x61, 0x76, 0x61, 0x00] = .error .panicked := by
  simp [Dex.m_utf8.to_string, Dex.m_utf8.go, Dex.read_u8, Dex.m_utf8.utf16Valid]
  try decide

/-- C3 — witness instantiating the universally quantified conjunct of the
amended theorem at the concrete `"Java"` decode. -/
theorem C3_witness_java_decode_consumes_through_zero :
    ∃ taken, ([0x4A, 0x61, 0x76, 0x61, 0x00, 0x99] : Dex.Bytes) = taken ++ 0 :: [0x99] ∧
      ¬ 0 ∈ taken :=
  C3_mutf8_stops_at_zero_panics_on_excess.1 4 [0x4A, 0x61, 0x76, 0x61, 0x00, 0x99]
    [0x4A, 0x61, 0x76, 0x61] [0x99]
    (by simp [Dex.m_utf8.to_string, Dex.m_utf8.go, Dex.read_u8, Dex.m_utf8.utf16Valid]
        try decide)

@[simp] theorem except_bind_ok {ε α β : Type} (a : α) (f : α → Except ε β) :
    (Except.ok a >>= f : Except ε β) = f a := rfl

@[simp] theorem except_bind_error {ε α β : Type} (e : ε) (f : α → Except ε β) :
    (Except.error e >>= f : Except ε β) = .error e := rfl

theorem mrepeat_length {α : Type} (p : Dex.Bytes → Except Dex.PErr (α × Dex.Bytes)) :
    ∀ (n : Nat) (s : Dex.Bytes) (l : List α) (r : Dex.Bytes),
      Dex.mrepeat p n s = .ok (l, r) → l.length = n := by
  intro n
  induction n with
  | zero =>
    intro s l r h
    simp [Dex.mrepeat] at h
    simp [h.1]
  | succ n ih =>
    intro s l r h
    simp only [Dex.mrepeat] at h
    cases hp : p s with
    | error e => rw [hp] at h; simp at h
    | ok v =>
      obtain ⟨a, s1⟩ := v
      rw [hp] at h
      simp only [except_bind_ok] at h
      cases hm : Dex.mrepeat p n s1 with
      | error e => rw [hm] at h; simp at h
      | ok w =>
        obtain ⟨as, s2⟩ := w
        rw [hm] at h
        simp only [except_bind_ok] at h
        simp at h
        rw [← h.1]
        simp [ih s1 as s2 hm]

theorem find_type_in_map_isSome_iff (map_list : List Dex.MapItem) (t : Nat) :
    (Dex.find_type_in_map map_list t).isSome = true ↔
      ∃ it ∈ map_list, it.item_type = t := by
  induction map_list with
  | nil => simp [Dex.find_type_in_map]
  | cons it rest ih =>
    by_cases h : it.item_type = t
    · simp [Dex.find_type_in_map, h]
    · simp [Dex.find_type_in_map, h, ih]

theorem find_type_in_map_eq_none (map_list : List Dex.MapItem) (t : Nat)
    (h : ¬ ∃ it ∈ map_list, it.item_type = t) :
    Dex.find_type_in_map map_list t = none := by
  rcases hf : Dex.find_type_in_map map_list t with _ | it
  · rfl
  · exact absurd ((find_type_in_map_isSome_iff map_list t).mp (by simp [hf])) h

/-- C4 — counterexample to the claim as stated.  On the class_data bytes
`02 00 00 00 03 01 05 02` (sizes 2,0,0,0; static fields as diff/flags pairs
(3,1) and (5,2)) the parser's output stores the raw `field_idx_diff` values 3
and 5 — the `ClassData`/`EncodedField` records it returns carry no other index
field — so the resolved absolute index 8 of the second entry claimed to be
made available is nowhere in the result (5 ≠ 8). -/
theorem C4_counterexample_raw_diff_not_resolved :
    Dex.parse_class_data [⟨0x2000, 1, 0⟩]
        [0x02, 0x00, 0x00, 0x00, 0x03, 0x01, 0x05, 0x02] =
      .ok ([⟨[⟨3, 1⟩, ⟨5, 2⟩], [], [], []⟩], []) ∧ (5 : Nat) ≠ 8 := by
  refine ⟨by decide, by decide⟩

/-- C4 — amended claim.  The parser exposes only the raw diffs: the example
class_data parses to static fields with `field_idx_diff` 3 and 5 and access
flags 1 and 2; the resolved absolute indices required by the claim are the
prefix sums of those diffs — 3 and 8 for the example — computable from the
output but not part of it. -/
theorem C4_class_data_stores_raw_diffs :
    Dex.parse_class_data [⟨0x2000, 1, 0⟩]
        [0x02, 0x00, 0x00, 0x00, 0x03, 0x01, 0x05, 0x02] =
      .ok ([⟨[⟨3, 1⟩, ⟨5, 2⟩], [], [], []⟩], []) ∧
      Dex.resolvedFieldIndices [⟨3, 1⟩, ⟨5, 2⟩] = [3, 8] ∧
      [(⟨3, 1⟩ : Dex.EncodedField).access_flags,
        (⟨5, 2⟩ : Dex.EncodedField).access_flags] = [1, 2] := by
  refine ⟨by decide, by decide, by decide⟩

/-- C9 — confirmed.  `parse_call_side_item` panics exactly when the map list
contains a call-site entry (type 0x07), and returns normally otherwise. -/
theorem C9_call_site_parser_aborts_iff_entry :
    ∀ map_list : List Dex.MapItem,
      (Dex.parse_call_side_item map_list = .error .panicked ↔
        ∃ it ∈ map_list, it.item_type = 0x07) ∧
      ((¬ ∃ it ∈ map_list, it.item_type = 0x07) →
        Dex.parse_call_side_item map_list = .ok ()) := by
  intro map_list
  constructor
  · rw [← find_type_in_map_isSome_iff]
    unfold Dex.parse_call_side_item
    split <;> simp_all
  · intro h
    rw [← find_type_in_map_isSome_iff] at h
    unfold Dex.parse_call_side_item
    simp_all

/-- C9 — witness: a map list holding a 0x07 entry makes the parser abort, one
without does not. -/
theorem C9_witness_concrete_maps :
    Dex.parse_call_side_item [⟨0x07, 3, 16⟩] = .error .panicked ∧
      Dex.parse_call_side_item [⟨0x08, 3, 16⟩] = .ok () :=
  ⟨(C9_call_site_parser_aborts_iff_entry [⟨0x07, 3, 16⟩]).1.mpr
      ⟨⟨0x07, 3, 16⟩, by simp, rfl⟩,
    (C9_call_site_parser_aborts_iff_entry [⟨0x08, 3, 16⟩]).2 (by decide)⟩

/-- C10 — confirmed.  With the relevant map entry absent,
`parse_call_side_ids`, `parse_method_handles` and `parse_hiddenapi_class_data`
return `Ok` with an empty vector leaving the input untouched, while
`parse_class_data`, `parse_debug_info` and `parse_type_lists` panic. -/
theorem C10_missing_map_entry_behaviour :
    ∀ (map_list : List Dex.MapItem) (file : Dex.Bytes),
      ((¬ ∃ it ∈ map_list, it.item_type = 0x07) →
          Dex.parse_call_side_ids map_list file = .ok ([], file)) ∧
      ((¬ ∃ it ∈ map_list, it.item_type = 0x08) →
          Dex.parse_method_handles map_list file = .ok ([], file)) ∧
      ((¬ ∃ it ∈ map_list, it.item_type = 0xF000) →
          Dex.parse_hiddenapi_class_data map_list file = .ok ([], file)) ∧
      ((¬ ∃ it ∈ map_list, it.item_type = 0x2000) →
          Dex.parse_class_data map_list file = .error .panicked) ∧
      ((¬ ∃ it ∈ map_list, it.item_type = 0x2003) →
          Dex.parse_debug_info map_list file = .error .panicked) ∧
      ((¬ ∃ it ∈ map_list, it.item_type = 0x1001) →
          Dex.parse_type_lists map_list file = .error .panicked) := by
  intro map_list file
  refine ⟨?_, ?_, ?_, ?_, ?_, ?_⟩ <;> intro h
  · rw [Dex.parse_call_side_ids, find_type_in_map_eq_none map_list 0x07 h]
  · rw [Dex.parse_method_handles, find_type_in_map_eq_none map_list 0x08 h]
  · rw [Dex.parse_hiddenapi_class_data, find_type_in_map_eq_none map_list 0xF000 h]
  · rw [Dex.parse_class_data, find_type_in_map_eq_none map_list 0x2000 h]
  · rw [Dex.parse_debug_info, find_type_in_map_eq_none map_list 0x2003 h]
  · rw [Dex.parse_type_lists, find_type_in_map_eq_none map_list 0x1001 h]

/-- C10 — witness: all six behaviours at an empty map list and a nonempty
file. -/
theorem C10_witness_empty_map :
    Dex.parse_call_side_ids [] [1, 2] = .ok ([], [1, 2]) ∧
      Dex.parse_method_handles [] [1, 2] = .ok ([], [1, 2]) ∧
      Dex.parse_hiddenapi_class_data [] [1, 2] = .ok ([], [1, 2]) ∧
      Dex.parse_class_data [] [1, 2] = .error .panicked ∧
      Dex.parse_debug_info [] [1, 2] = .error .panicked ∧
      Dex.parse_type_lists [] [1, 2] = .error .panicked :=
  have h := C10_missing_map_entry_behaviour [] [1, 2]
  ⟨h.1 (by decide), h.2.1 (by decide), h.2.2.1 (by decide), h.2.2.2.1 (by decide),
    h.2.2.2.2.1 (by decide), h.2.2.2.2.2 (by decide)⟩

namespace Dex

structure TryItem where
  start_addr : Nat
  insn_count : Nat
  handler_off : Nat
  deriving DecidableEq, Repr

structure EncodedTypeAddrPair where
  type_idx : Nat
  addr : Nat
  deriving DecidableEq, Repr

structure EncodedCatchHandler where
  handlers : List EncodedTypeAddrPair
  catch_all_addr : Option Nat
  deriving DecidableEq, Repr

structure CodeItem where
  registers_size : Nat
  ins_size : Nat
  outs_size : Nat
  debug_info_off : Nat
  insns : List Nat
  tries : List TryItem
  handlers : List EncodedCatchHandler
  deriving DecidableEq, Repr

/-- One `{type_idx: uleb128, addr: uleb128}` pair of an encoded catch
handler. -/
def read_type_addr_pair (s : Bytes) : Except PErr (EncodedTypeAddrPair × Bytes) := do
  let (t, s) ← read_uleb_unwrap s
  let (a, s) ← read_uleb_unwrap s
  .ok (⟨t, a⟩, s)

/-- One `encoded_catch_handler` of `parse_code_items`: sleb128 size, `|size|`
pairs, and a `catch_all_addr` uleb128 exactly when the size is not positive. -/
def read_encoded_catch_handler (s : Bytes) : Except PErr (EncodedCatchHandler × Bytes) := do
  let (size, s) ← read_sleb_unwrap s
  let (handlers, s) ← mrepeat read_type_addr_pair size.natAbs s
  if size > 0 then .ok (⟨handlers, none⟩, s)
  else do
    let (catch_all_addr, s) ← read_uleb_unwrap s
    .ok (⟨handlers, some catch_all_addr⟩, s)

/-- The `encoded_catch_handler_list`: uleb128 count then that many
handlers. -/
def read_handler_list (s : Bytes) : Except PErr (List EncodedCatchHandler × Bytes) := do
  let (size, s) ← read_uleb_unwrap s
  mrepeat read_encoded_catch_handler size s

/-- The `handlers` field of the code-item loop: nothing is read when
`tries_size == 0`, otherwise the whole handler list. -/
def read_handlers_section (tries_size : Nat) (s : Bytes) :
    Except PErr (List EncodedCatchHandler × Bytes) :=
  if tries_size = 0 then .ok ([], s) else read_handler_list s

/-- One `try_item`: u32 start_addr, u16 insn_count, u16 handler_off. -/
def read_try_item (s : Bytes) : Except PErr (TryItem × Bytes) := do
  let (start_addr, s) := read_u32 s
  let (insn_count, s) := read_u16 s
  let (handler_off, s) := read_u16 s
  .ok (⟨start_addr, insn_count, handler_off⟩, s)

/-- One iteration of `parse_code_items`: the six fixed header fields, the
insns with their conditional two-byte padding, the tries, the conditional
handler list, and the final re-alignment of the cursor to 4 bytes measured
from the position after the fixed fields (`current_pos`). -/
def read_code_item (s : Bytes) : Except PErr (CodeItem × Bytes) := do
  let (registers_size, s) := read_u16 s
  let (ins_size, s) := read_u16 s
  let (outs_size, s) := read_u16 s
  let (tries_size, s) := read_u16 s
  let (debug_info_off, s) := read_u32 s
  let (insns_size, s) := read_u32 s
  let len0 := s.length
  let (insns, s) ← mrepeat read_u16p insns_size s
  let (s : Bytes) ←
    if tries_size ≠ 0 ∧ insns_size % 2 = 1 then do
      let (_, s) ← read_exact 2 s
      .ok s
    else .ok s
  let (tries, s) ← mrepeat read_try_item tries_size s
  let (handlers, s) ← read_handlers_section tries_size s
  let consumed := len0 - s.length
  if consumed % 4 = 0 then
    .ok (⟨registers_size, ins_size, outs_size, debug_info_off, insns, tries, handlers⟩, s)
  else do
    let (_, s) ← read_exact (4 - consumed % 4) s
    .ok (⟨registers_size, ins_size, outs_size, debug_info_off, insns, tries, handlers⟩, s)

/-- `parse_code_items`: `find_type_in_map(map_list, 0x2001).unwrap()` then
`size` code items at the offset. -/
def parse_code_items (map_list : List MapItem) (file : Bytes) :
    Except PErr (List CodeItem × Bytes) :=
  match find_type_in_map map_list 0x2001 with
  | none => .error .panicked
  | some item => mrepeat read_code_item item.size (file.drop item.offset)

end Dex

/-- Little-endian 4-byte encoding of a u32 value (statement vocabulary). -/
def u32le (n : Nat) : Dex.Bytes :=
  [n % 256, n / 256 % 256, n / 65536 % 256, n / 16777216 % 256]

/-- The u16 values of consecutive little-endian byte pairs (statement
vocabulary). -/
def u16pairs : Dex.Bytes → List Nat
  | b0 :: b1 :: rest => (b0 + 256 * b1) :: u16pairs rest
  | _ => []

theorem read_u32_u32le (n : Nat) (t : Dex.Bytes) (h : n < 2 ^ 32) :
    Dex.read_u32 (u32le n ++ t) = (n, t) := by
  simp [Dex.read_u32, u32le]
  omega

theorem mrepeat_read_u16p (n : Nat) :
    ∀ (ws t : Dex.Bytes), ws.length = 2 * n →
      Dex.mrepeat Dex.read_u16p n (ws ++ t) = .ok (u16pairs ws, t) := by
  induction n with
  | zero =>
    intro ws t h
    rw [List.length_eq_zero.mp h]
    simp [Dex.mrepeat, u16pairs]
  | succ n ih =>
    intro ws t h
    rcases ws with _ | ⟨b0, _ | ⟨b1, ws'⟩⟩
    · simp at h
    · simp at h
      omega
    · simp only [Dex.mrepeat, Dex.read_u16p, Dex.read_u16, List.cons_append, List.headD_cons,
        List.drop_succ_cons, List.drop_zero, except_bind_ok]
      rw [ih ws' t (by simp at h; omega)]
      simp [u16pairs]

/-- C8 — confirmed.  One type_list read consumes a u32 size, then `size`
little-endian u16 type indices, then exactly two further (skipped) padding
bytes when `size` is odd and none when it is even, leaving the rest of the
stream untouched — so consecutive type_lists stay 4-byte aligned. -/
theorem C8_type_list_reads_and_pads :
    ∀ (size : Nat) (ws pad extra : Dex.Bytes),
      size < 2 ^ 32 → ws.length = 2 * size →
      pad.length = (if size % 2 = 1 then 2 else 0) →
      Dex.read_type_list (u32le size ++ (ws ++ (pad ++ extra))) =
        .ok (u16pairs ws, extra) := by
  intro size ws pad extra hsz hws hpad
  unfold Dex.read_type_list
  rw [read_u32_u32le size _ hsz]
  dsimp only
  rw [mrepeat_read_u16p size ws (pad ++ extra) hws]
  simp only [except_bind_ok]
  by_cases hodd : size % 2 = 1
  · rw [if_pos hodd]
    rw [if_pos hodd] at hpad
    rcases pad with _ | ⟨p0, _ | ⟨p1, _ | _⟩⟩ <;> simp at hpad
    simp [Dex.read_exact]
  · rw [if_neg hodd]
    rw [if_neg hodd] at hpad
    rcases pad with _ | _ <;> simp at hpad ⊢

/-- C8 — witness: a single type list of odd size 1 (index 7), two padding
bytes `AA BB`, and a trailing byte 9 left over. -/
theorem C8_witness_odd_size_one :
    Dex.read_type_list [0x01, 0x00, 0x00, 0x00, 0x07, 0x00, 0xAA, 0xBB, 0x09] =
      .ok ([7], [9]) := by
  have h := C8_type_list_reads_and_pads 1 [0x07, 0x00] [0xAA, 0xBB] [0x09]
    (by decide) (by decide) (by decide)
  simpa [u32le, u16pairs] using h

/-- C7 — confirmed.  In a code_item the encoded_catch_handler_list is read
iff `tries_size > 0` (conjuncts 2 and 3: with `tries_size = 0` the handlers
come back empty with the stream untouched, otherwise the handler-list parse
runs on the stream); every successfully parsed handler whose leading sleb128
decodes to `size` carries exactly `|size|` (type_idx, addr) pairs and a
catch_all_addr exactly when `size ≤ 0` (conjunct 1); conjunct 4 exercises
both handler shapes on concrete bytes (sleb `7F` = -1 with catch_all 9, sleb
`02` with two pairs and no catch_all). -/
theorem C7_catch_handlers_shape :
    (∀ (s : Dex.Bytes) (h : Dex.EncodedCatchHandler) (r : Dex.Bytes) (sz : Int)
        (s1 : Dex.Bytes),
        Dex.read_sleb_unwrap s = .ok (sz, s1) →
        Dex.read_encoded_catch_handler s = .ok (h, r) →
        h.handlers.length = sz.natAbs ∧ (h.catch_all_addr.isSome ↔ sz ≤ 0)) ∧
    (∀ s : Dex.Bytes, Dex.read_handlers_section 0 s = .ok ([], s)) ∧
    (∀ (t : Nat) (s : Dex.Bytes), t ≠ 0 →
        Dex.read_handlers_section t s = Dex.read_handler_list s) ∧
    (Dex.read_encoded_catch_handler [0x7F, 2, 5, 9] = .ok (⟨[⟨2, 5⟩], some 9⟩, []) ∧
      Dex.read_encoded_catch_handler [0x02, 1, 2, 3, 4] =
        .ok (⟨[⟨1, 2⟩, ⟨3, 4⟩], none⟩, [])) := by
  refine ⟨?_, ?_, ?_, by decide, by decide⟩
  · intro s h r sz s1 hsleb hrun
    unfold Dex.read_encoded_catch_handler at hrun
    rw [hsleb] at hrun
    simp only [except_bind_ok] at hrun
    cases hm : Dex.mrepeat Dex.read_type_addr_pair sz.natAbs s1 with
    | error e => rw [hm] at hrun; simp at hrun
    | ok w =>
      obtain ⟨pairs, s2⟩ := w
      rw [hm] at hrun
      simp only [except_bind_ok] at hrun
      by_cases hpos : sz > 0
      · rw [if_pos hpos] at hrun
        simp at hrun
        rw [← hrun.1]
        constructor
        · simp [mrepeat_length Dex.read_type_addr_pair sz.natAbs s1 pairs s2 hm]
        · simp
          omega
      · rw [if_neg hpos] at hrun
        cases hu : Dex.read_uleb_unwrap s2 with
        | error e => rw [hu] at hrun; simp at hrun
        | ok w2 =>
          obtain ⟨ca, s3⟩ := w2
          rw [hu] at hrun
          simp only [except_bind_ok] at hrun
          simp at hrun
          rw [← hrun.1]
          constructor
          · simp [mrepeat_length Dex.read_type_addr_pair sz.natAbs s1 pairs s2 hm]
          · simp
            omega
  · intro s
    simp [Dex.read_handlers_section]
  · intro t s ht
    simp [Dex.read_handlers_section, ht]

/-- C7 — witness: the handler-shape conjunct applied at the concrete bytes
`7F 02 05 09` (sleb size -1: one pair, catch_all present). -/
theorem C7_witness_negative_size_handler :
    (Dex.EncodedCatchHandler.mk [⟨2, 5⟩] (some 9)).handlers.length = (-1 : Int).natAbs ∧
      ((Dex.EncodedCatchHandler.mk [⟨2, 5⟩] (some 9)).catch_all_addr.isSome ↔
        (-1 : Int) ≤ 0) :=
  C7_catch_handlers_shape.1 [0x7F, 2, 5, 9] ⟨[⟨2, 5⟩], some 9⟩ [] (-1) [2, 5, 9]
    (by decide) (by decide)

namespace Dex

/-- `DEX_FILE_MAGIC` (`"dex\n039\0"`). -/
def DEX_FILE_MAGIC : Bytes := [0x64, 0x65, 0x78, 0x0a, 0x30, 0x33, 0x39, 0x00]

/-- `SUPPORTED_DEX_VERSIONS` in main.rs. -/
def SUPPORTED_DEX_VERSIONS : List Nat := [35, 37, 38, 39]

/-- `String::from_utf8_lossy(&buf[4..7])` followed by `parse::<u16>()` with
`expect`, as reachable from `verify_magic` (the prefix check there pins
`buf[4]` to `'0'`, so no leading sign can occur and the string parses exactly
when all three bytes are ASCII digits). -/
def parse_version (b4 b5 b6 : Nat) : Except PErr Nat :=
  if 48 ≤ b4 ∧ b4 ≤ 57 ∧ 48 ≤ b5 ∧ b5 ≤ 57 ∧ 48 ≤ b6 ∧ b6 ≤ 57 then
    .ok (100 * (b4 - 48) + 10 * (b5 - 48) + (b6 - 48))
  else .error .panicked

/-- `DexHeader::verify_magic` (same in main.rs and raw_dex.rs): panics unless
the 8-byte buffer starts with the five bytes `dex\n0` (`DEX_FILE_MAGIC[0..5]`)
and ends with `\0` (`DEX_FILE_MAGIC[7..8]`); then parses bytes 4..7 as the
decimal version. -/
def verify_magic (buf : Bytes) : Except PErr Nat :=
  if buf.take 5 = DEX_FILE_MAGIC.take 5 ∧ buf.drop 7 = [0x00] then
    parse_version (buf.getD 4 0) (buf.getD 5 0) (buf.getD 6 0)
  else .error .panicked

/-- The magic acceptance of `main`: `verify_magic` must return a version and
`assert!(SUPPORTED_DEX_VERSIONS.contains(&version))` must pass. -/
def accepts_magic (buf : Bytes) : Bool :=
  match verify_magic buf with
  | .ok v => SUPPORTED_DEX_VERSIONS.contains v
  | .error _ => false

end Dex

/-- The claim's acceptance condition, following the spec's words: `dex\n`
prefix, `\0` suffix, three ASCII digits in between whose decimal value lies
in the version set. -/
def magic_claim_accepts (vset : List Nat) (buf : Dex.Bytes) : Prop :=
  buf.take 4 = [0x64, 0x65, 0x78, 0x0a] ∧ buf.drop 7 = [0x00] ∧
  (48 ≤ buf.getD 4 0 ∧ buf.getD 4 0 ≤ 57) ∧
  (48 ≤ buf.getD 5 0 ∧ buf.getD 5 0 ≤ 57) ∧
  (48 ≤ buf.getD 6 0 ∧ buf.getD 6 0 ≤ 57) ∧
  (100 * (buf.getD 4 0 - 48) + 10 * (buf.getD 5 0 - 48) + (buf.getD 6 0 - 48)) ∈ vset

/-- C5 — counterexample to the claim as stated: the magic `dex\n040\0` has the
proper prefix, suffix and three ASCII digits with version 040 — a member of
the claim's version set — yet the program rejects it
(`SUPPORTED_DEX_VERSIONS` is `[35, 37, 38, 39]`; 40 is not in it). -/
theorem C5_counterexample_version_040_rejected :
    magic_claim_accepts [35, 37, 38, 39, 40]
        [0x64, 0x65, 0x78, 0x0a, 0x30, 0x34, 0x30, 0x00] ∧
      Dex.accepts_magic [0x64, 0x65, 0x78, 0x0a, 0x30, 0x34, 0x30, 0x00] = false := by
  constructor
  · refine ⟨by decide, by decide, by decide, by decide, by decide, by decide⟩
  · decide

/-- C5 — amended claim.  Header magic validation accepts exactly the 8-byte
buffers with the `dex\n` prefix, the `\0` suffix, and three ASCII digits in
between forming a version in {035, 037, 038, 039}: `SUPPORTED_DEX_VERSIONS`
does not include 040, so 040 is rejected along with everything outside the
set.  (The code checks the 5-byte prefix `dex\n0`; since every supported
version is below 100, the digit `0` at position 4 is forced either way and
the two conditions coincide.) -/
theorem C5_magic_accepted_iff (b0 b1 b2 b3 b4 b5 b6 b7 : Nat) :
    Dex.accepts_magic [b0, b1, b2, b3, b4, b5, b6, b7] = true ↔
      magic_claim_accepts [35, 37, 38, 39] [b0, b1, b2, b3, b4, b5, b6, b7] := by
  unfold Dex.accepts_magic Dex.verify_magic Dex.parse_version magic_claim_accepts
    Dex.DEX_FILE_MAGIC Dex.SUPPORTED_DEX_VERSIONS
  dsimp only [List.take, List.drop, List.getD, List.get?, Option.getD_some]
  constructor
  · intro h
    split at h
    · rename_i v hv
      split at hv
      · rename_i hpre
        split at hv
        · rename_i hdig
          injection hv with hv
          subst hv
          simp only [List.cons.injEq, and_true] at hpre
          obtain ⟨⟨e0, e1, e2, e3, e4⟩, e7⟩ := hpre
          simp at h
          refine ⟨by simp [e0, e1, e2, e3], by simp [e7], ⟨by omega, by omega⟩,
            ⟨hdig.2.2.1, hdig.2.2.2.1⟩, ⟨hdig.2.2.2.2.1, hdig.2.2.2.2.2⟩, ?_⟩
          simp only [List.mem_cons, List.not_mem_nil, or_false]
          omega
        · exact absurd hv (by simp)
      · exact absurd hv (by simp)
    · simp at h
  · rintro ⟨hpre, hsuf, hd4, hd5, hd6, hmem⟩
    simp only [List.cons.injEq, and_true] at hpre
    obtain ⟨e0, e1, e2, e3⟩ := hpre
    simp only [List.cons.injEq, and_true] at hsuf
    simp only [List.mem_cons, List.not_mem_nil, or_false] at hmem
    have hb4 : b4 = 48 := by omega
    rw [if_pos ?hc]
    case hc =>
      subst e0 e1 e2 e3 hb4
      simp [hsuf]
    rw [if_pos (by omega : 48 ≤ b4 ∧ b4 ≤ 57 ∧ 48 ≤ b5 ∧ b5 ≤ 57 ∧ 48 ≤ b6 ∧ b6 ≤ 57)]
    simp
    omega

/-- C5 — witness: the supported magic `dex\n039\0` is accepted. -/
theorem C5_witness_039_accepted :
    Dex.accepts_magic [0x64, 0x65, 0x78, 0x0a, 0x30, 0x33, 0x39, 0x00] = true :=
  (C5_magic_accepted_iff 0x64 0x65 0x78 0x0a 0x30 0x33 0x39 0x00).mpr
    (by exact ⟨by decide, by decide, by decide, by decide, by decide, by decide⟩)

namespace Dex

structure DexHeader where
  magic : Bytes
  checksum : Nat
  signature : Bytes
  file_size : Nat
  header_size : Nat
  endian_tag : Nat
  link_size : Nat
  link_off : Nat
  map_off : Nat
  string_ids_size : Nat
  string_ids_off : Nat
  type_ids_size : Nat
  type_ids_off : Nat
  proto_ids_size : Nat
  proto_ids_off : Nat
  field_ids_size : Nat
  field_ids_off : Nat
  method_ids_size : Nat
  method_ids_off : Nat
  class_defs_size : Nat
  class_defs_off : Nat
  data_size : Nat
  data_off : Nat
  deriving DecidableEq, Repr

/-- The string-id loop at the start of main.rs `parse_strings`:
`string_ids_size` zero-filling `read_u32` reads. -/
def parse_string_ids_loop : Nat → Bytes → List Nat
  | 0, _ => []
  | n + 1, s =>
    let (v, s) := read_u32 s
    v :: parse_string_ids_loop n s

/-- The string-id offsets `parse_strings` collects after seeking
`string_ids_off`. -/
def string_ids_of (hdr : DexHeader) (file : Bytes) : List Nat :=
  parse_string_ids_loop hdr.string_ids_size (file.drop hdr.string_ids_off)

/-- Success condition of `String::from_utf8` (RFC 3629 well-formedness),
deciding which byte vectors survive `String::from_utf8(v).unwrap_or("")`. -/
def utf8Valid : Bytes → Bool
  | [] => true
  | b :: rest =>
    if b < 0x80 then utf8Valid rest
    else if 0xC2 ≤ b ∧ b ≤ 0xDF then
      match rest with
      | c1 :: r => decide (0x80 ≤ c1 ∧ c1 ≤ 0xBF) && utf8Valid r
      | [] => false
    else if b = 0xE0 then
      match rest with
      | c1 :: c2 :: r =>
        decide (0xA0 ≤ c1 ∧ c1 ≤ 0xBF) && decide (0x80 ≤ c2 ∧ c2 ≤ 0xBF) && utf8Valid r
      | _ => false
    else if (0xE1 ≤ b ∧ b ≤ 0xEC) ∨ b = 0xEE ∨ b = 0xEF then
      match rest with
      | c1 :: c2 :: r =>
        decide (0x80 ≤ c1 ∧ c1 ≤ 0xBF) && decide (0x80 ≤ c2 ∧ c2 ≤ 0xBF) && utf8Valid r
      | _ => false
    else if b = 0xED then
      match rest with
      | c1 :: c2 :: r =>
        decide (0x80 ≤ c1 ∧ c1 ≤ 0x9F) && decide (0x80 ≤ c2 ∧ c2 ≤ 0xBF) && utf8Valid r
      | _ => false
    else if b = 0xF0 then
      match rest with
      | c1 :: c2 :: c3 :: r =>
        decide (0x90 ≤ c1 ∧ c1 ≤ 0xBF) && decide (0x80 ≤ c2 ∧ c2 ≤ 0xBF) &&
          decide (0x80 ≤ c3 ∧ c3 ≤ 0xBF) && utf8Valid r
      | _ => false
    else if 0xF1 ≤ b ∧ b ≤ 0xF3 then
      match rest with
      | c1 :: c2 :: c3 :: r =>
        decide (0x80 ≤ c1 ∧ c1 ≤ 0xBF) && decide (0x80 ≤ c2 ∧ c2 ≤ 0xBF) &&
          decide (0x80 ≤ c3 ∧ c3 ≤ 0xBF) && utf8Valid r
      | _ => false
    else if b = 0xF4 then
      match rest with
      | c1 :: c2 :: c3 :: r =>
        decide (0x80 ≤ c1 ∧ c1 ≤ 0x8F) && decide (0x80 ≤ c2 ∧ c2 ≤ 0xBF) &&
          decide (0x80 ≤ c3 ∧ c3 ≤ 0xBF) && utf8Valid r
      | _ => false
    else false

/-- One iteration of the string loop of main.rs `parse_strings`: the
`debug_assert!` that the offset lies strictly inside the data section
(computing `data_off + data_size` first, whose u32 overflow also panics in
debug), then seek to the offset, uleb length (unwrap), `read_exact` of that
many bytes (unwrap), and `String::from_utf8(v).unwrap_or(String::new())`. -/
def read_string_at (hdr : DexHeader) (file : Bytes) (off : Nat) : Except PErr Bytes :=
  if ¬ hdr.data_off + hdr.data_size < 2 ^ 32 then .error .panicked
  else if ¬ (hdr.data_off < off ∧ off < hdr.data_off + hdr.data_size) then .error .panicked
  else
    match read_uleb (file.drop off) with
    | .error _ => .error .panicked
    | .ok (size, s) =>
      match read_exact size s with
      | .error _ => .error .panicked
      | .ok (v, _) => .ok (if utf8Valid v then v else [])

/-- The per-offset loop of main.rs `parse_strings`. -/
def parse_strings_loop (hdr : DexHeader) (file : Bytes) :
    List Nat → Except PErr (List Bytes)
  | [] => .ok []
  | off :: offs => do
    let v ← read_string_at hdr file off
    let vs ← parse_strings_loop hdr file offs
    .ok (v :: vs)

/-- main.rs `parse_strings`. -/
def parse_strings (hdr : DexHeader) (file : Bytes) : Except PErr (List Bytes) :=
  parse_strings_loop hdr file (string_ids_of hdr file)

end Dex

theorem read_string_at_error_panicked (hdr : Dex.DexHeader) (file : Dex.Bytes) (off : Nat)
    (e : Dex.PErr) (h : Dex.read_string_at hdr file off = .error e) : e = .panicked := by
  unfold Dex.read_string_at at h
  split_ifs at h <;>
    first
      | (injection h with h; exact h.symm)
      | (split at h <;>
          first
            | (injection h with h; exact h.symm)
            | (split at h <;>
                first
                  | (injection h with h; exact h.symm)
                  | exact Except.noConfusion h))

theorem read_string_at_ok_range (hdr : Dex.DexHeader) (file : Dex.Bytes) (off : Nat)
    (v : Dex.Bytes) (h : Dex.read_string_at hdr file off = .ok v) :
    hdr.data_off < off ∧ off < hdr.data_off + hdr.data_size := by
  unfold Dex.read_string_at at h
  split_ifs at h <;>
    first
      | exact Except.noConfusion h
      | assumption

theorem parse_strings_loop_ok_range (hdr : Dex.DexHeader) (file : Dex.Bytes) :
    ∀ (offs : List Nat) (strs : List Dex.Bytes),
      Dex.parse_strings_loop hdr file offs = .ok strs →
      ∀ off ∈ offs, hdr.data_off < off ∧ off < hdr.data_off + hdr.data_size := by
  intro offs
  induction offs with
  | nil => simp
  | cons o rest ih =>
    intro strs h off hmem
    simp only [Dex.parse_strings_loop] at h
    cases hr : Dex.read_string_at hdr file o with
    | error e => rw [hr] at h; simp at h
    | ok v =>
      rw [hr] at h
      simp only [except_bind_ok] at h
      cases hl : Dex.parse_strings_loop hdr file rest with
      | error e => rw [hl] at h; simp at h
      | ok vs =>
        rcases List.mem_cons.mp hmem with rfl | hmem2
        · exact read_string_at_ok_range hdr file off v hr
        · exact ih vs hl off hmem2

theorem parse_strings_loop_bad_offset (hdr : Dex.DexHeader) (file : Dex.Bytes) :
    ∀ offs : List Nat,
      (∃ off ∈ offs, ¬ (hdr.data_off < off ∧ off < hdr.data_off + hdr.data_size)) →
      Dex.parse_strings_loop hdr file offs = .error .panicked := by
  intro offs
  induction offs with
  | nil => rintro ⟨off, hmem, _⟩; simp at hmem
  | cons o rest ih =>
    rintro ⟨off, hmem, hbad⟩
    simp only [Dex.parse_strings_loop]
    cases hr : Dex.read_string_at hdr file o with
    | error e =>
      have he := read_string_at_error_panicked hdr file o e hr
      subst he
      simp
    | ok v =>
      simp only [except_bind_ok]
      rcases List.mem_cons.mp hmem with rfl | hmem2
      · exact absurd (read_string_at_ok_range hdr file off v hr) hbad
      · rw [ih ⟨off, hmem2, hbad⟩]
        simp

/-- C6 — confirmed (via the `debug_assert!` active in the debug profile the
tool runs under).  Every string_id offset of a successful parse satisfies
`data_off ≤ o < data_off + data_size` (the code even enforces the strict
`data_off < o`), and the parser fails on any offset list containing an
offset outside the data section. -/
theorem C6_string_offsets_within_data_section :
    ∀ (hdr : Dex.DexHeader) (file : Dex.Bytes),
      (∀ strs, Dex.parse_strings hdr file = .ok strs →
        ∀ off ∈ Dex.string_ids_of hdr file,
          hdr.data_off ≤ off ∧ off < hdr.data_off + hdr.data_size) ∧
      ((∃ off ∈ Dex.string_ids_of hdr file,
          ¬ (hdr.data_off ≤ off ∧ off < hdr.data_off + hdr.data_size)) →
        Dex.parse_strings hdr file = .error .panicked) := by
  intro hdr file
  constructor
  · intro strs h off hmem
    have := parse_strings_loop_ok_range hdr file (Dex.string_ids_of hdr file) strs h off hmem
    omega
  · rintro ⟨off, hmem, hbad⟩
    exact parse_strings_loop_bad_offset hdr file (Dex.string_ids_of hdr file)
      ⟨off, hmem, by omega⟩

/-- C6 — witness: a header whose data section is `[100, 110)` and a file
whose single string_id offset is 200 make the parser fail. -/
theorem C6_witness_rejects_outside_offset :
    Dex.parse_strings
        ⟨[], 0, [], 0, 0, 0, 0, 0, 0, 1, 0, 0, 0, 0, 0, 0, 0, 0, 0, 0, 0, 10, 100⟩
        [200, 0, 0, 0] = .error .panicked :=
  (C6_string_offsets_within_data_section
      ⟨[], 0, [], 0, 0, 0, 0, 0, 0, 1, 0, 0, 0, 0, 0, 0, 0, 0, 0, 0, 0, 10, 100⟩
      [200, 0, 0, 0]).2
    ⟨200, by decide, by decide⟩
